import Mathlib

/-!
Verification development for a small reddit-clone data layer.

The source (`src/reddit.js`) declares three Sequelize models and two
relationships, and `src/README.md` shows the `CREATE TABLE` that Sequelize
generates for the `votes` join table:

  * `user`: `username`, `password`, `email`, all `Sequelize.STRING` with no
    `allowNull: false` and no uniqueness constraint, so all three columns are
    nullable and unconstrained;
  * `content`: `url`, `title` (nullable strings); `User.hasMany(Content)` adds
    a nullable `userId` foreign key to `content` (the reverse association is
    left commented out in the source), whose delete behaviour is SET NULL;
  * `vote`: `upVote` (`tinyint(1) DEFAULT NULL`, i.e. a nullable boolean) plus
    the two foreign keys `userId`/`contentId`, both `NOT NULL`,
    `PRIMARY KEY (userId, contentId)`, both foreign keys `ON DELETE CASCADE`.

We embed the store as explicit state (`DB`) with one operation per SQL
statement the schema admits; the three data-access functions of the exercise
are not implemented in the source, so they are modelled from the spec and are
marked as such.
-/

namespace Reddit

/-- A row of the `users` table: `id` is the auto-increment primary key,
`username`/`password`/`email` are nullable strings (the source declares them
as plain `Sequelize.STRING` with no constraints), plus the two Sequelize
timestamps. -/
structure User where
  id : Nat
  username : Option String
  password : Option String
  email : Option String
  createdAt : Nat
  updatedAt : Nat
deriving Repr, DecidableEq

/-- A row of the `contents` table: `url`/`title` are nullable strings; `userId`
is the nullable foreign key added by `User.hasMany(Content)` (the reverse
`Content.belongsTo(User)` is commented out in the source, and Sequelize's
default for a `hasMany` foreign key is a nullable column with
`ON DELETE SET NULL`). -/
structure Content where
  id : Nat
  url : Option String
  title : Option String
  userId : Option Nat
  createdAt : Nat
  updatedAt : Nat
deriving Repr, DecidableEq

/-- A row of the `votes` table, per the `CREATE TABLE` in the README: no `id`
column; `upVote` is `tinyint(1) DEFAULT NULL` (a nullable boolean); `userId`
and `contentId` are `NOT NULL` foreign keys forming the composite
`PRIMARY KEY (userId, contentId)`. -/
structure Vote where
  userId : Nat
  contentId : Nat
  upVote : Option Bool
  createdAt : Nat
  updatedAt : Nat
deriving Repr, DecidableEq

/-- The persistent state: the three tables plus the auto-increment counters of
the two tables that have a surrogate primary key. -/
structure DB where
  users : List User
  contents : List Content
  votes : List Vote
  nextUserId : Nat
  nextContentId : Nat
deriving Repr, DecidableEq

/-- The state right after `db.sync()` on an empty database
(MySQL auto-increment counters start at 1). -/
def emptyDB : DB := ⟨[], [], [], 1, 1⟩

/-- Errors the storage layer can raise, per the generated schema: a duplicate
composite primary key on `votes`, or a foreign-key violation. -/
inductive StoreError
  | primaryKeyViolation
  | foreignKeyViolation
deriving Repr, DecidableEq

/-- Errors surfaced by the data-access functions (spec §7). -/
inductive DataError
  | notFound
  | duplicateVote
  | constraintViolation
  | providerError
deriving Repr, DecidableEq

/-- `users` table membership test by primary key. -/
def userExists (users : List User) (id : Nat) : Bool :=
  users.any (fun u => u.id == id)

/-- `contents` table membership test by primary key. -/
def contentExists (contents : List Content) (id : Nat) : Bool :=
  contents.any (fun c => c.id == id)

/-- Whether a row with composite key `(userId, contentId)` is already present
in the `votes` table. -/
def hasVoteFor (votes : List Vote) (userId contentId : Nat) : Bool :=
  votes.any (fun v => v.userId == userId && v.contentId == contentId)

/-- The foreign-key check for a nullable foreign-key column: a NULL reference
is allowed, a non-NULL one must point to an existing `users` row. -/
def fkOk (users : List User) : Option Nat → Bool
  | some uid => userExists users uid
  | none => true

/-- `INSERT INTO users ...`: the `user` model declares no constraint of any
kind (all three columns are nullable, none unique), so the insert always
succeeds, assigning the auto-increment id and the two timestamps. -/
def insertUser (db : DB) (now : Nat) (username password email : Option String) :
    Except StoreError User × DB :=
  let row : User := ⟨db.nextUserId, username, password, email, now, now⟩
  (.ok row,
    { db with users := row :: db.users, nextUserId := db.nextUserId + 1 })

/-- `INSERT INTO contents ...`: `url` and `title` are unconstrained nullable
columns; the only constraint is the nullable foreign key `userId`. -/
def insertContent (db : DB) (now : Nat) (url title : Option String)
    (userId : Option Nat) : Except StoreError Content × DB :=
  if fkOk db.users userId then
    let row : Content := ⟨db.nextContentId, url, title, userId, now, now⟩
    (.ok row,
      { db with contents := row :: db.contents,
                nextContentId := db.nextContentId + 1 })
  else (.error .foreignKeyViolation, db)

/-- `INSERT INTO votes ...`: rejected when the composite primary key
`(userId, contentId)` already exists, or when either `NOT NULL` foreign key
does not reference an existing row; `upVote` itself is nullable and
unconstrained. -/
def insertVote (db : DB) (now : Nat) (userId contentId : Nat)
    (upVote : Option Bool) : Except StoreError Vote × DB :=
  if hasVoteFor db.votes userId contentId then
    (.error .primaryKeyViolation, db)
  else if userExists db.users userId && contentExists db.contents contentId then
    let row : Vote := ⟨userId, contentId, upVote, now, now⟩
    (.ok row, { db with votes := row :: db.votes })
  else (.error .foreignKeyViolation, db)

/-- `DELETE FROM users WHERE id = userId`: the `votes.userId` foreign key is
`ON DELETE CASCADE` (README), so the user's votes are deleted; the
`contents.userId` foreign key generated by `User.hasMany(Content)` is nullable
with Sequelize's default SET NULL delete behaviour, so owned contents survive
with their owner reference nulled. -/
def deleteUser (db : DB) (userId : Nat) : DB :=
  { db with
    users := db.users.filter (fun u => u.id != userId),
    contents := db.contents.map
      (fun c => if c.userId = some userId then { c with userId := none } else c),
    votes := db.votes.filter (fun v => v.userId != userId) }

/-- `DELETE FROM contents WHERE id = contentId`: the `votes.contentId` foreign
key is `ON DELETE CASCADE` (README), so the content's votes are deleted. -/
def deleteContent (db : DB) (contentId : Nat) : DB :=
  { db with
    contents := db.contents.filter (fun c => c.id != contentId),
    votes := db.votes.filter (fun v => v.contentId != contentId) }

/-- `User.findById(id)`. -/
def findUserById (db : DB) (id : Nat) : Option User :=
  db.users.find? (fun u => u.id == id)

/-- `Content.findById(id)`. -/
def findContentById (db : DB) (id : Nat) : Option Content :=
  db.contents.find? (fun c => c.id == id)

/-- Lookup of the vote a given user cast on a given content item. -/
def findVote (db : DB) (userId contentId : Nat) : Option Vote :=
  db.votes.find? (fun v => v.userId == userId && v.contentId == contentId)

/-- Modelled from the spec: `createNewUser(username, password, callback)` is
described in the README (task 1) and in spec §4.2 but not implemented in the
source. It inserts a new `users` row carrying the given username and password
(no email is taken) and yields the created record. -/
def createNewUser (db : DB) (now : Nat) (username password : String) :
    Except DataError User × DB :=
  match insertUser db now (some username) (some password) none with
  | (.ok row, db') => (.ok row, db')
  | (.error _, db') => (.error .providerError, db')

/-- Modelled from the spec: `createNewContent(userId, url, title, callback)` is
described in the README (task 2) and in spec §4.3 but not implemented in the
source. It looks the user up by id, fails with `notFound` (leaving the store
untouched) when absent, and otherwise inserts the content row with its owner
reference set in that same single insert. -/
def createNewContent (db : DB) (now : Nat) (userId : Nat) (url title : String) :
    Except DataError Content × DB :=
  match findUserById db userId with
  | none => (.error .notFound, db)
  | some _ =>
    match insertContent db now (some url) (some title) (some userId) with
    | (.ok row, db') => (.ok row, db')
    | (.error _, db') => (.error .providerError, db')

/-- Modelled from the spec: `voteOnContent(contentId, userId, isUpVote,
callback)` is described in the README (task 3) and in spec §4.4 but not
implemented in the source. It checks that both referenced rows exist (else
`notFound`), then attempts the single vote insert; a composite-primary-key
rejection is surfaced as the distinct `duplicateVote` error. -/
def voteOnContent (db : DB) (now : Nat) (contentId userId : Nat)
    (isUpVote : Bool) : Except DataError Vote × DB :=
  match findContentById db contentId, findUserById db userId with
  | none, _ => (.error .notFound, db)
  | _, none => (.error .notFound, db)
  | some _, some _ =>
    match insertVote db now userId contentId (some isUpVote) with
    | (.ok row, db') => (.ok row, db')
    | (.error .primaryKeyViolation, db') => (.error .duplicateVote, db')
    | (.error .foreignKeyViolation, db') => (.error .providerError, db')

/-- The states reachable from the freshly synced empty database by any
sequence of the statements the schema admits: the three inserts and the two
deletes. The data-access functions only touch the store through these
statements, so their effects are covered as well. -/
inductive Reachable : DB → Prop
  | init : Reachable emptyDB
  | insUser {db : DB} (now : Nat) (a b c : Option String) :
      Reachable db → Reachable (insertUser db now a b c).2
  | insContent {db : DB} (now : Nat) (url title : Option String)
      (owner : Option Nat) :
      Reachable db → Reachable (insertContent db now url title owner).2
  | insVote {db : DB} (now uid cid : Nat) (dir : Option Bool) :
      Reachable db → Reachable (insertVote db now uid cid dir).2
  | delUser {db : DB} (uid : Nat) :
      Reachable db → Reachable (deleteUser db uid)
  | delContent {db : DB} (cid : Nat) :
      Reachable db → Reachable (deleteContent db cid)

/-- The `votes` table respects its composite primary key: no two rows share
the `(userId, contentId)` pair. -/
def votePairsUnique : List Vote → Bool
  | [] => true
  | v :: rest => !hasVoteFor rest v.userId v.contentId && votePairsUnique rest

/-- Referential integrity of the nullable `contents.userId` foreign key:
every non-NULL owner reference points to an existing `users` row. -/
def contentOwnersValid (db : DB) : Prop :=
  ∀ c ∈ db.contents, ∀ uid, c.userId = some uid →
    userExists db.users uid = true

/-! ### Basic lemmas about the table predicates -/

theorem hasVoteFor_iff (vs : List Vote) (u c : Nat) :
    hasVoteFor vs u c = true ↔ ∃ v ∈ vs, v.userId = u ∧ v.contentId = c := by
  simp [hasVoteFor, List.any_eq_true, Bool.and_eq_true, beq_iff_eq]

theorem userExists_iff (us : List User) (i : Nat) :
    userExists us i = true ↔ ∃ u ∈ us, u.id = i := by
  simp [userExists, List.any_eq_true, beq_iff_eq]

theorem contentExists_iff (cs : List Content) (i : Nat) :
    contentExists cs i = true ↔ ∃ c ∈ cs, c.id = i := by
  simp [contentExists, List.any_eq_true, beq_iff_eq]

theorem hasVoteFor_filter (vs : List Vote) (p : Vote → Bool) (u c : Nat)
    (h : hasVoteFor (vs.filter p) u c = true) : hasVoteFor vs u c = true := by
  rw [hasVoteFor_iff] at h ⊢
  obtain ⟨v, hv, hprop⟩ := h
  exact ⟨v, (List.mem_filter.mp hv).1, hprop⟩

theorem votePairsUnique_filter (vs : List Vote) (p : Vote → Bool)
    (h : votePairsUnique vs = true) : votePairsUnique (vs.filter p) = true := by
  induction vs with
  | nil => simpa using h
  | cons v rest ih =>
    simp only [votePairsUnique, Bool.and_eq_true, Bool.not_eq_true'] at h
    by_cases hp : p v = true
    · simp only [List.filter_cons, hp, if_pos, votePairsUnique,
        Bool.and_eq_true, Bool.not_eq_true']
      refine ⟨?_, ih h.2⟩
      cases hfe : hasVoteFor (rest.filter p) v.userId v.contentId with
      | false => rfl
      | true => rw [hasVoteFor_filter rest p _ _ hfe] at h; exact absurd h.1 (by simp)
    · simpa [List.filter_cons, hp] using ih h.2

theorem userExists_filter_ne (us : List User) (uid w : Nat) (hne : w ≠ uid)
    (h : userExists us w = true) :
    userExists (us.filter (fun u => u.id != uid)) w = true := by
  rw [userExists_iff] at h ⊢
  obtain ⟨u, hu, hid⟩ := h
  exact ⟨u, List.mem_filter.mpr ⟨hu, by simp [hid, hne]⟩, hid⟩

theorem findUserById_of_userExists (db : DB) (i : Nat)
    (h : userExists db.users i = true) : ∃ u, findUserById db i = some u := by
  have : (db.users.find? (fun u => u.id == i)).isSome := by
    rw [List.find?_isSome]
    rw [userExists_iff] at h
    obtain ⟨u, hu, hid⟩ := h
    exact ⟨u, hu, by simp [hid]⟩
  exact ⟨_, Option.isSome_iff_exists.mp this |>.choose_spec⟩

theorem findContentById_of_contentExists (db : DB) (i : Nat)
    (h : contentExists db.contents i = true) :
    ∃ c, findContentById db i = some c := by
  have : (db.contents.find? (fun c => c.id == i)).isSome := by
    rw [List.find?_isSome]
    rw [contentExists_iff] at h
    obtain ⟨c, hc, hid⟩ := h
    exact ⟨c, hc, by simp [hid]⟩
  exact ⟨_, Option.isSome_iff_exists.mp this |>.choose_spec⟩

/-! ### Projection lemmas: which tables each statement leaves untouched -/

theorem insertUser_contents (db : DB) (now : Nat) (a b c : Option String) :
    (insertUser db now a b c).2.contents = db.contents := rfl

theorem insertUser_votes (db : DB) (now : Nat) (a b c : Option String) :
    (insertUser db now a b c).2.votes = db.votes := rfl

theorem insertUser_users (db : DB) (now : Nat) (a b c : Option String) :
    (insertUser db now a b c).2.users =
      ⟨db.nextUserId, a, b, c, now, now⟩ :: db.users := rfl

theorem insertContent_users (db : DB) (now : Nat) (url title : Option String)
    (owner : Option Nat) : (insertContent db now url title owner).2.users
      = db.users := by
  unfold insertContent
  split <;> rfl

theorem insertContent_votes (db : DB) (now : Nat) (url title : Option String)
    (owner : Option Nat) : (insertContent db now url title owner).2.votes
      = db.votes := by
  unfold insertContent
  split <;> rfl

theorem insertVote_users (db : DB) (now uid cid : Nat) (dir : Option Bool) :
    (insertVote db now uid cid dir).2.users = db.users := by
  unfold insertVote
  split
  · rfl
  · split <;> rfl

theorem insertVote_contents (db : DB) (now uid cid : Nat) (dir : Option Bool) :
    (insertVote db now uid cid dir).2.contents = db.contents := by
  unfold insertVote
  split
  · rfl
  · split <;> rfl

/-! ### Invariants over all reachable states -/

theorem reachable_votePairsUnique {db : DB} (h : Reachable db) :
    votePairsUnique db.votes = true := by
  induction h with
  | init => rfl
  | insUser now a b c _ ih => simpa [insertUser] using ih
  | insContent now url title owner _ ih =>
    unfold insertContent
    split <;> simpa using ih
  | insVote now uid cid dir _ ih =>
    unfold insertVote
    split
    · simpa using ih
    · split
      · rename_i hdup _
        simpa [votePairsUnique, hdup] using ih
      · simpa using ih
  | delUser uid _ ih => exact votePairsUnique_filter _ _ ih
  | delContent cid _ ih => exact votePairsUnique_filter _ _ ih

theorem reachable_contentOwnersValid {db : DB} (h : Reachable db) :
    contentOwnersValid db := by
  induction h with
  | init => intro c hc; simp [emptyDB] at hc
  | insUser now a b c _ ih =>
    intro x hx uid hown
    rw [insertUser_contents] at hx
    rw [insertUser_users]
    have := ih x hx uid hown
    simp only [userExists, List.any_cons, Bool.or_eq_true]
    exact Or.inr (by simpa [userExists] using this)
  | insContent now url title owner _ ih =>
    intro x hx uid hown
    rw [insertContent_users]
    unfold insertContent at hx
    split at hx
    · rename_i hfk
      simp only [List.mem_cons] at hx
      rcases hx with hx | hx
      · subst hx
        simp only at hown
        rw [hown] at hfk
        simpa using hfk
      · exact ih x hx uid hown
    · exact ih x hx uid hown
  | insVote now ucid cid dir _ ih =>
    intro x hx uid hown
    rw [insertVote_users]
    rw [insertVote_contents] at hx
    exact ih x hx uid hown
  | delUser uid0 _ ih =>
    intro x hx uid hown
    simp only [deleteUser, List.mem_map] at hx
    obtain ⟨c, hc, hmap⟩ := hx
    by_cases hcu : c.userId = some uid0
    · rw [if_pos hcu] at hmap
      subst hmap
      simp at hown
    · rw [if_neg hcu] at hmap
      subst hmap
      have hne : uid ≠ uid0 := by
        intro hEq
        subst hEq
        exact hcu hown
      exact userExists_filter_ne _ _ _ hne (ih c hc uid hown)
  | delContent cid0 _ ih =>
    intro x hx uid hown
    simp only [deleteContent, List.mem_filter] at hx
    exact ih x hx.1 uid hown

/-! ### Success and failure paths of the operations -/

theorem userExists_of_findUserById (db : DB) (i : Nat) (u : User)
    (h : findUserById db i = some u) : userExists db.users i = true := by
  rw [userExists_iff]
  refine ⟨u, List.mem_of_find?_eq_some h, ?_⟩
  have := List.find?_some h
  simpa using this

theorem insertVote_ok (db : DB) (now uid cid : Nat) (dir : Option Bool)
    (hu : userExists db.users uid = true)
    (hc : contentExists db.contents cid = true)
    (hv : hasVoteFor db.votes uid cid = false) :
    insertVote db now uid cid dir =
      (.ok ⟨uid, cid, dir, now, now⟩,
       { db with votes := ⟨uid, cid, dir, now, now⟩ :: db.votes }) := by
  simp [insertVote, hv, hu, hc]

theorem insertVote_dup (db : DB) (now uid cid : Nat) (dir : Option Bool)
    (hv : hasVoteFor db.votes uid cid = true) :
    insertVote db now uid cid dir = (.error .primaryKeyViolation, db) := by
  simp [insertVote, hv]

theorem voteOnContent_ok (db : DB) (now cid uid : Nat) (d : Bool)
    (hu : userExists db.users uid = true)
    (hc : contentExists db.contents cid = true)
    (hv : hasVoteFor db.votes uid cid = false) :
    voteOnContent db now cid uid d =
      (.ok ⟨uid, cid, some d, now, now⟩,
       { db with votes := ⟨uid, cid, some d, now, now⟩ :: db.votes }) := by
  obtain ⟨u, hfu⟩ := findUserById_of_userExists db uid hu
  obtain ⟨c, hfc⟩ := findContentById_of_contentExists db cid hc
  unfold voteOnContent
  rw [hfc, hfu, insertVote_ok db now uid cid (some d) hu hc hv]

theorem voteOnContent_dup (db : DB) (now cid uid : Nat) (d : Bool)
    (hu : userExists db.users uid = true)
    (hc : contentExists db.contents cid = true)
    (hv : hasVoteFor db.votes uid cid = true) :
    voteOnContent db now cid uid d = (.error .duplicateVote, db) := by
  obtain ⟨u, hfu⟩ := findUserById_of_userExists db uid hu
  obtain ⟨c, hfc⟩ := findContentById_of_contentExists db cid hc
  unfold voteOnContent
  rw [hfc, hfu, insertVote_dup db now uid cid (some d) hv]

theorem createNewContent_found (db : DB) (now uid : Nat) (url title : String)
    (u : User) (h : findUserById db uid = some u) :
    createNewContent db now uid url title =
      (.ok ⟨db.nextContentId, some url, some title, some uid, now, now⟩,
       { db with
           contents := ⟨db.nextContentId, some url, some title, some uid,
             now, now⟩ :: db.contents,
           nextContentId := db.nextContentId + 1 }) := by
  have hex : userExists db.users uid = true :=
    userExists_of_findUserById db uid u h
  unfold createNewContent
  rw [h]
  simp [insertContent, fkOk, hex]

/-! ### Concrete reachable states used as witnesses -/

/-- The state after creating one user (id 1) and one content item (id 1,
owned by user 1) from the freshly synced database. -/
def dbUC : DB :=
  (insertContent (insertUser emptyDB 0 (some "alice") (some "secret") none).2
    0 (some "http://x.com") (some "X") (some 1)).2

/-- `dbUC` with one vote: user 1 upvoted content 1. -/
def dbOwned : DB := (insertVote dbUC 0 1 1 (some true)).2

theorem reachable_dbUC : Reachable dbUC :=
  Reachable.insContent 0 (some "http://x.com") (some "X") (some 1)
    (Reachable.insUser 0 (some "alice") (some "secret") none Reachable.init)

theorem reachable_dbOwned : Reachable dbOwned :=
  Reachable.insVote 0 1 1 (some true) reachable_dbUC

theorem dbUC_eq : dbUC =
    ⟨[⟨1, some "alice", some "secret", none, 0, 0⟩],
     [⟨1, some "http://x.com", some "X", some 1, 0, 0⟩], [], 2, 2⟩ := by decide

theorem dbOwned_eq : dbOwned =
    ⟨[⟨1, some "alice", some "secret", none, 0, 0⟩],
     [⟨1, some "http://x.com", some "X", some 1, 0, 0⟩],
     [⟨1, 1, some true, 0, 0⟩], 2, 2⟩ := by decide

/-! ### Claim theorems -/

/-- C1: in every state reachable by any sequence of operations, at most one
`Vote` row exists per `(userId, contentId)` pair, and an attempt to insert a
second row for an existing pair is rejected by the store itself with a
primary-key violation, leaving the state unchanged — the `(userId, contentId)`
composite primary key of the `votes` table, not application logic. -/
theorem vote_pair_unique_and_second_insert_rejected {db : DB}
    (h : Reachable db) :
    votePairsUnique db.votes = true ∧
    ∀ now uid cid dir, hasVoteFor db.votes uid cid = true →
      insertVote db now uid cid dir = (.error .primaryKeyViolation, db) :=
  ⟨reachable_votePairsUnique h,
   fun now uid cid dir hdup => insertVote_dup db now uid cid dir hdup⟩

/-- C1 witness: the reachable state `dbOwned` holds a vote by user 1 on
content 1, the pair-uniqueness predicate holds of it, and re-inserting that
pair is rejected by the primary key. -/
theorem vote_pair_unique_and_second_insert_rejected_attained :
    Reachable dbOwned ∧
    (votePairsUnique dbOwned.votes = true ∧
     ∀ now uid cid dir, hasVoteFor dbOwned.votes uid cid = true →
       insertVote dbOwned now uid cid dir =
         (.error .primaryKeyViolation, dbOwned)) :=
  ⟨reachable_dbOwned,
   vote_pair_unique_and_second_insert_rejected reachable_dbOwned⟩

/-- C2: for an existing user and an existing content item with no prior vote
by that pair, `voteOnContent(contentId, userId, true)` succeeds, the
subsequent `voteOnContent(contentId, userId, false)` fails with the distinct
`duplicateVote` error (a different constructor from `constraintViolation` and
`providerError`), the store is unchanged by the failed call, and the stored
vote's direction remains `true`. -/
theorem second_opposite_vote_fails_duplicate (db : DB) (now1 now2 uid cid : Nat)
    (hu : userExists db.users uid = true)
    (hc : contentExists db.contents cid = true)
    (hv : hasVoteFor db.votes uid cid = false) :
    (voteOnContent db now1 cid uid true).1 =
      .ok ⟨uid, cid, some true, now1, now1⟩ ∧
    (voteOnContent (voteOnContent db now1 cid uid true).2 now2 cid uid false).1
      = .error .duplicateVote ∧
    (voteOnContent (voteOnContent db now1 cid uid true).2 now2 cid uid false).2
      = (voteOnContent db now1 cid uid true).2 ∧
    findVote (voteOnContent db now1 cid uid true).2 uid cid
      = some ⟨uid, cid, some true, now1, now1⟩ ∧
    DataError.duplicateVote ≠ DataError.constraintViolation ∧
    DataError.duplicateVote ≠ DataError.providerError := by
  have h1 := voteOnContent_ok db now1 cid uid true hu hc hv
  have hv2 : hasVoteFor
      ((⟨uid, cid, some true, now1, now1⟩ : Vote) :: db.votes) uid cid
      = true := by
    simp [hasVoteFor]
  have h2 := voteOnContent_dup
    { db with votes := ⟨uid, cid, some true, now1, now1⟩ :: db.votes }
    now2 cid uid false hu hc hv2
  rw [h1]
  dsimp only
  rw [h2]
  refine ⟨rfl, rfl, rfl, ?_, by simp, by simp⟩
  simp only [findVote]
  exact List.find?_cons_of_pos _ (by simp)

/-- C2 witness: instantiated at the reachable two-row state `dbUC`
(user 1, content 1, no votes yet). -/
theorem second_opposite_vote_fails_duplicate_attained :
    userExists dbUC.users 1 = true ∧
    contentExists dbUC.contents 1 = true ∧
    hasVoteFor dbUC.votes 1 1 = false ∧
    ((voteOnContent dbUC 3 1 1 true).1 = .ok ⟨1, 1, some true, 3, 3⟩ ∧
     (voteOnContent (voteOnContent dbUC 3 1 1 true).2 4 1 1 false).1
       = .error .duplicateVote ∧
     (voteOnContent (voteOnContent dbUC 3 1 1 true).2 4 1 1 false).2
       = (voteOnContent dbUC 3 1 1 true).2 ∧
     findVote (voteOnContent dbUC 3 1 1 true).2 1 1
       = some ⟨1, 1, some true, 3, 3⟩ ∧
     DataError.duplicateVote ≠ DataError.constraintViolation ∧
     DataError.duplicateVote ≠ DataError.providerError) :=
  ⟨by decide, by decide, by decide,
   second_opposite_vote_fails_duplicate dbUC 3 4 1 1
     (by decide) (by decide) (by decide)⟩

/-- C3: when no user has the given id, `createNewContent` fails with
`notFound` and returns the store unchanged — no `Content` row is inserted on
this error path. -/
theorem createNewContent_missing_user_notFound (db : DB) (now uid : Nat)
    (url title : String) (h : findUserById db uid = none) :
    createNewContent db now uid url title = (.error .notFound, db) := by
  unfold createNewContent
  rw [h]

/-- C3 witness: creating content for the absent user 1 in the empty store
fails with `notFound` and leaves the store empty. -/
theorem createNewContent_missing_user_notFound_attained :
    findUserById emptyDB 1 = none ∧
    createNewContent emptyDB 0 1 "http://a" "A" = (.error .notFound, emptyDB) :=
  ⟨by decide,
   createNewContent_missing_user_notFound emptyDB 0 1 "http://a" "A" (by decide)⟩

/-- C4 counterexample: the `user` model declares `username`, `password` and
`email` as plain nullable strings with no constraint, so persisting a `User`
record with all three fields missing succeeds and stores the row — it does not
fail with a constraint violation as the claim states. -/
theorem user_missing_fields_accepted :
    (insertUser emptyDB 0 none none none).1 =
      .ok ⟨1, none, none, none, 0, 0⟩ ∧
    (insertUser emptyDB 0 none none none).2.users =
      [⟨1, none, none, none, 0, 0⟩] :=
  ⟨rfl, rfl⟩

/-- C4 amended: the `user` model declares no constraint at all (the three
columns are nullable, none unique), so an insert always succeeds, whatever
subset of `username`, `password`, `email` is missing, and the row is stored
as given. -/
theorem insertUser_unconstrained (db : DB) (now : Nat)
    (a b c : Option String) :
    (insertUser db now a b c).1 = .ok ⟨db.nextUserId, a, b, c, now, now⟩ ∧
    (insertUser db now a b c).2.users =
      ⟨db.nextUserId, a, b, c, now, now⟩ :: db.users :=
  ⟨rfl, rfl⟩

/-- C5 counterexample: in the reachable state `dbOwned` (user 1 owns content 1
and has voted on it), deleting user 1 removes the user and cascades to the
vote, but does NOT delete the owned content — the content row survives with
its owner reference set to NULL, because the `contents.userId` foreign key
generated by `User.hasMany(Content)` is nullable with SET NULL delete
behaviour, not a cascade. -/
theorem deleteUser_keeps_owned_content :
    (deleteUser dbOwned 1).users = [] ∧
    (deleteUser dbOwned 1).votes = [] ∧
    (deleteUser dbOwned 1).contents =
      [⟨1, some "http://x.com", some "X", none, 0, 0⟩] := by
  decide

/-- C5 amended: deleting a User cascades to every Vote referencing that user
but keeps every owned Content row, nulling its owner reference; deleting a
Content cascades to every Vote referencing it; and after either deletion every
remaining Content row's owner reference, when non-NULL, points to an existing
User. -/
theorem delete_cascades_and_owner_integrity (db : DB) (uid cid : Nat)
    (h : Reachable db) :
    (∀ v ∈ (deleteUser db uid).votes, v.userId ≠ uid) ∧
    (∀ c ∈ db.contents, ∃ c' ∈ (deleteUser db uid).contents, c'.id = c.id ∧
      (c.userId = some uid → c'.userId = none) ∧
      (c.userId ≠ some uid → c'.userId = c.userId)) ∧
    (∀ v ∈ (deleteContent db cid).votes, v.contentId ≠ cid) ∧
    contentOwnersValid (deleteUser db uid) ∧
    contentOwnersValid (deleteContent db cid) := by
  refine ⟨?_, ?_, ?_,
    reachable_contentOwnersValid (Reachable.delUser uid h),
    reachable_contentOwnersValid (Reachable.delContent cid h)⟩
  · intro v hv
    simp only [deleteUser, List.mem_filter, bne_iff_ne] at hv
    exact hv.2
  · intro c hc
    refine ⟨if c.userId = some uid then { c with userId := none } else c,
      ?_, ?_, ?_, ?_⟩
    · simp only [deleteUser, List.mem_map]
      exact ⟨c, hc, rfl⟩
    · split <;> rfl
    · intro hcu
      simp [hcu]
    · intro hcu
      simp [hcu]
  · intro v hv
    simp only [deleteContent, List.mem_filter, bne_iff_ne] at hv
    exact hv.2

/-- C5 witness: the amended cascade behaviour instantiated at the reachable
state `dbOwned`, deleting user 1 and content 1. -/
theorem delete_cascades_and_owner_integrity_attained :
    Reachable dbOwned ∧
    ((∀ v ∈ (deleteUser dbOwned 1).votes, v.userId ≠ 1) ∧
     (∀ c ∈ dbOwned.contents, ∃ c' ∈ (deleteUser dbOwned 1).contents,
       c'.id = c.id ∧
       (c.userId = some 1 → c'.userId = none) ∧
       (c.userId ≠ some 1 → c'.userId = c.userId)) ∧
     (∀ v ∈ (deleteContent dbOwned 1).votes, v.contentId ≠ 1) ∧
     contentOwnersValid (deleteUser dbOwned 1) ∧
     contentOwnersValid (deleteContent dbOwned 1)) :=
  ⟨reachable_dbOwned,
   delete_cascades_and_owner_integrity dbOwned 1 1 reachable_dbOwned⟩

/-- C6 counterexample: the persistence layer accepts a Content row with no
owner at all — the `userId` foreign key added by `User.hasMany(Content)` is
nullable (the source leaves the reverse `belongsTo` association commented
out), so "no Content row exists without an owner" fails: here an ownerless
content row is stored in an otherwise empty database. -/
theorem ownerless_content_accepted :
    (insertContent emptyDB 0 (some "http://a") (some "A") none).1 =
      .ok ⟨1, some "http://a", some "A", none, 0, 0⟩ ∧
    (insertContent emptyDB 0 (some "http://a") (some "A") none).2.contents =
      [⟨1, some "http://a", some "A", none, 0, 0⟩] :=
  ⟨rfl, rfl⟩

/-- C6 amended: the User-to-Content relationship is one-to-many and
`createNewContent` for an existing user produces a Content row whose owner
reference equals that user's id, set within the single insert that creates the
row; the schema does not, however, forbid ownerless Content rows (the owner
foreign key is nullable). -/
theorem createNewContent_owner_set_at_insert (db : DB) (now uid : Nat)
    (url title : String) (u : User) (h : findUserById db uid = some u) :
    (createNewContent db now uid url title).1 =
      .ok ⟨db.nextContentId, some url, some title, some uid, now, now⟩ ∧
    (createNewContent db now uid url title).2.contents =
      ⟨db.nextContentId, some url, some title, some uid, now, now⟩
        :: db.contents := by
  rw [createNewContent_found db now uid url title u h]
  exact ⟨rfl, rfl⟩

/-- C6 witness: creating content for the existing user 1 of `dbUC` stores the
row with owner reference 1, in the same insert. -/
theorem createNewContent_owner_set_at_insert_attained :
    findUserById dbUC 1 = some ⟨1, some "alice", some "secret", none, 0, 0⟩ ∧
    ((createNewContent dbUC 2 1 "http://b" "B").1 =
       .ok ⟨dbUC.nextContentId, some "http://b", some "B", some 1, 2, 2⟩ ∧
     (createNewContent dbUC 2 1 "http://b" "B").2.contents =
       ⟨dbUC.nextContentId, some "http://b", some "B", some 1, 2, 2⟩
         :: dbUC.contents) :=
  ⟨by decide,
   createNewContent_owner_set_at_insert dbUC 2 1 "http://b" "B"
     ⟨1, some "alice", some "secret", none, 0, 0⟩ (by decide)⟩

/-- C7: `createNewUser` always succeeds, inserting exactly one `users` row;
the record handed to the caller carries the generated identifier
(`nextUserId`) and both timestamps set to the insertion instant, and a
subsequent lookup by that identifier returns a record equal to the one handed
to the caller. -/
theorem createNewUser_inserts_and_lookup_roundtrip (db : DB) (now : Nat)
    (un pw : String) :
    (createNewUser db now un pw).1 =
      .ok ⟨db.nextUserId, some un, some pw, none, now, now⟩ ∧
    (createNewUser db now un pw).2.users =
      ⟨db.nextUserId, some un, some pw, none, now, now⟩ :: db.users ∧
    findUserById (createNewUser db now un pw).2 db.nextUserId =
      some ⟨db.nextUserId, some un, some pw, none, now, now⟩ := by
  refine ⟨rfl, rfl, ?_⟩
  show List.find? _
    ((⟨db.nextUserId, some un, some pw, none, now, now⟩ : User) :: db.users)
    = _
  exact List.find?_cons_of_pos _ (by simp)

/-- C8: two `voteOnContent` calls for the same `(userId, contentId)` pair
with opposite directions: the store insert is the only state change and is
atomic at the provider, the read phase of `voteOnContent` never reads the
`votes` table, and a vote insert changes neither `users` nor `contents`
(first conjunct) — so every interleaving of the two calls reduces to one of
the two orders of their inserts, and the theorem, quantified over the
direction `d1` of whichever insert lands first, covers both: the first call
succeeds, the second fails with `duplicateVote`, and the final store holds
exactly one vote row for the pair, carrying the first writer's direction. -/
theorem concurrent_opposite_votes_once (db : DB) (now1 now2 uid cid : Nat)
    (d1 : Bool)
    (hu : userExists db.users uid = true)
    (hc : contentExists db.contents cid = true)
    (hv : hasVoteFor db.votes uid cid = false) :
    (∀ now dir, (insertVote db now uid cid dir).2.users = db.users ∧
      (insertVote db now uid cid dir).2.contents = db.contents) ∧
    (voteOnContent db now1 cid uid d1).1 =
      .ok ⟨uid, cid, some d1, now1, now1⟩ ∧
    (voteOnContent (voteOnContent db now1 cid uid d1).2 now2 cid uid (!d1)).1
      = .error .duplicateVote ∧
    (voteOnContent (voteOnContent db now1 cid uid d1).2 now2 cid uid
        (!d1)).2.votes.filter
      (fun v => v.userId == uid && v.contentId == cid) =
      [⟨uid, cid, some d1, now1, now1⟩] := by
  have h1 := voteOnContent_ok db now1 cid uid d1 hu hc hv
  have hv2 : hasVoteFor
      ((⟨uid, cid, some d1, now1, now1⟩ : Vote) :: db.votes) uid cid
      = true := by
    simp [hasVoteFor]
  have h2 := voteOnContent_dup
    { db with votes := ⟨uid, cid, some d1, now1, now1⟩ :: db.votes }
    now2 cid uid (!d1) hu hc hv2
  have hnil : db.votes.filter
      (fun v => v.userId == uid && v.contentId == cid) = [] := by
    rw [List.filter_eq_nil_iff]
    intro v hv0 hp
    have hmem : hasVoteFor db.votes uid cid = true := by
      rw [hasVoteFor_iff]
      exact ⟨v, hv0, by simpa [Bool.and_eq_true, beq_iff_eq] using hp⟩
    rw [hv] at hmem
    exact Bool.false_ne_true hmem
  refine ⟨fun now dir =>
    ⟨insertVote_users db now uid cid dir, insertVote_contents db now uid cid dir⟩,
    ?_, ?_, ?_⟩
  · rw [h1]
  · rw [h1]
    dsimp only
    rw [h2]
  · rw [h1]
    dsimp only
    rw [h2]
    dsimp only
    simp [List.filter_cons, hnil]

/-- C8 witness: instantiated at the reachable state `dbUC` with the downvote
landing first. -/
theorem concurrent_opposite_votes_once_attained :
    userExists dbUC.users 1 = true ∧
    contentExists dbUC.contents 1 = true ∧
    hasVoteFor dbUC.votes 1 1 = false ∧
    ((∀ now dir, (insertVote dbUC now 1 1 dir).2.users = dbUC.users ∧
       (insertVote dbUC now 1 1 dir).2.contents = dbUC.contents) ∧
     (voteOnContent dbUC 5 1 1 false).1 = .ok ⟨1, 1, some false, 5, 5⟩ ∧
     (voteOnContent (voteOnContent dbUC 5 1 1 false).2 6 1 1 (!false)).1
       = .error .duplicateVote ∧
     (voteOnContent (voteOnContent dbUC 5 1 1 false).2 6 1 1
         (!false)).2.votes.filter
       (fun v => v.userId == 1 && v.contentId == 1) =
       [⟨1, 1, some false, 5, 5⟩]) :=
  ⟨by decide, by decide, by decide,
   concurrent_opposite_votes_once dbUC 5 6 1 1 false
     (by decide) (by decide) (by decide)⟩

/-- C9: the `user` model declares no uniqueness constraint on `username` (nor
on any other attribute), so two user creations carrying the same username both
succeed, and two distinct rows — distinguished by their generated ids — end up
stored. -/
theorem username_collision_allowed (db : DB) (now1 now2 : Nat)
    (un pw1 pw2 : String) :
    (createNewUser db now1 un pw1).1 =
      .ok ⟨db.nextUserId, some un, some pw1, none, now1, now1⟩ ∧
    (createNewUser (createNewUser db now1 un pw1).2 now2 un pw2).1 =
      .ok ⟨db.nextUserId + 1, some un, some pw2, none, now2, now2⟩ ∧
    (⟨db.nextUserId, some un, some pw1, none, now1, now1⟩ : User) ≠
      ⟨db.nextUserId + 1, some un, some pw2, none, now2, now2⟩ ∧
    (createNewUser (createNewUser db now1 un pw1).2 now2 un pw2).2.users =
      ⟨db.nextUserId + 1, some un, some pw2, none, now2, now2⟩ ::
      ⟨db.nextUserId, some un, some pw1, none, now1, now1⟩ :: db.users := by
  refine ⟨rfl, rfl, ?_, rfl⟩
  intro hEq
  have hid : db.nextUserId = db.nextUserId + 1 := congrArg User.id hEq
  omega

/-- C10: the `votes` schema accepts a row whose `upVote` direction is NULL —
the column is a nullable boolean with no non-null constraint — so a stored
vote need not be either an upvote or a downvote: inserting with a NULL
direction succeeds and the stored row carries NULL. -/
theorem vote_null_direction_accepted (db : DB) (now uid cid : Nat)
    (hu : userExists db.users uid = true)
    (hc : contentExists db.contents cid = true)
    (hv : hasVoteFor db.votes uid cid = false) :
    (insertVote db now uid cid none).1 = .ok ⟨uid, cid, none, now, now⟩ ∧
    (insertVote db now uid cid none).2.votes =
      ⟨uid, cid, none, now, now⟩ :: db.votes := by
  rw [insertVote_ok db now uid cid none hu hc hv]
  exact ⟨rfl, rfl⟩

/-- C10 witness: a direction-less vote by user 1 on content 1 is stored in the
reachable state `dbUC`. -/
theorem vote_null_direction_accepted_attained :
    userExists dbUC.users 1 = true ∧
    contentExists dbUC.contents 1 = true ∧
    hasVoteFor dbUC.votes 1 1 = false ∧
    ((insertVote dbUC 7 1 1 none).1 = .ok ⟨1, 1, none, 7, 7⟩ ∧
     (insertVote dbUC 7 1 1 none).2.votes = [⟨1, 1, none, 7, 7⟩]) :=
  ⟨by decide, by decide, by decide,
   vote_null_direction_accepted dbUC 7 1 1 (by decide) (by decide) (by decide)⟩

end Reddit
